import Mathlib

/-!
Shallow embedding of `src/solidarity-media-frontend/src/App.jsx`
(the SolidarityMediaHub React component).

Strings are modelled as `List Char` (`Str`); JavaScript numbers that the
component uses as non-negative integers are modelled as `Nat`, and values
that may be `undefined` as `Option _`.  JavaScript truthiness is modelled
explicitly (`0`, `NaN`, `undefined`, `""` are falsy).  Floating-point
arithmetic appears only inside `formatFileSize` / progress rounding and is
modelled with exact integer arithmetic (`Math.round(a/b)` becomes
`(2*a+b)/(2*b)` on `Nat`).
-/

abbrev Str := List Char

/-- JS truthiness for an optional number: `undefined`/`NaN` (modelled `none`)
and `0` are falsy. -/
def jsTruthyNum : Option Nat → Bool
  | none => false
  | some 0 => false
  | some (_ + 1) => true

/-- JS `x || d` for an optional string `x`: `undefined` and `""` fall back. -/
def jsOrStr (o : Option Str) (d : Str) : Str :=
  match o with
  | none => d
  | some s => if s = [] then d else s

/-- JS `x || 0` for an optional number. -/
def jsOrNum (o : Option Nat) : Nat :=
  match o with
  | none => 0
  | some n => n

/-- `Math.round (a / b)` for non-negative reals given exactly as `a / b`,
`b > 0`: round half up, i.e. `⌊a/b + 1/2⌋ = ⌊(2a+b)/(2b)⌋`. -/
def jsRound (a b : Nat) : Nat := (2 * a + b) / (2 * b)

/-- Characters removed by `String.prototype.trim` (the ASCII subset the
component can meet in practice; further Unicode space code points behave
the same way and are omitted). -/
def isJsWs (c : Char) : Bool := c = ' ' || c = '\t' || c = '\n' || c = '\r'

/-- JS `s.trim()`. -/
def jsTrim (s : Str) : Str :=
  ((s.dropWhile isJsWs).reverse.dropWhile isJsWs).reverse

/-- Decimal rendering of a `Nat`, as JS template interpolation of an
integer-valued number. -/
def toDec (n : Nat) : Str := (Nat.repr n).toList

/-- JS string interpolation of a possibly-`undefined` string value:
`undefined` renders as the text `undefined`. -/
def tmplStr (o : Option Str) : Str := o.getD ("undefined".toList)

/-- `MediaMetadata` as produced by the external service; every field the
component reads except none is assumed present, so all are optional. -/
structure MediaMetadata where
  title : Option Str
  uploader : Option Str
  url : Option Str
  platform : Option Str
  description : Option Str
  duration : Option Nat
  viewCount : Option Nat
  likeCount : Option Nat
  thumbnail : Option Str
  size : Option Nat
  mimeType : Option Str
  extension : Option Str
  filename : Option Str
deriving DecidableEq

/-- The component's React state hooks (`useState` at lines 5-12). -/
structure AppState where
  mediaUrl : Str
  metadata : Option MediaMetadata
  loading : Bool
  downloading : Bool
  progress : Nat
  error : Str
  success : Str
  solidarityName : Str
deriving DecidableEq

/-- `fetch` Response.ok: status in the inclusive range 200-299. -/
def respOk (status : Nat) : Bool := decide (200 ≤ status) && decide (status < 300)

/-- A metadata endpoint response: HTTP status, the `error` field of the JSON
body when the body parses and carries one, and the metadata payload used on
success. -/
structure MetadataResponse where
  status : Nat
  errorField : Option Str
  body : MediaMetadata
deriving DecidableEq

/-- A download endpoint response: HTTP status, JSON `error` field for the
failure path, the parsed `Content-Length` header (`none` when the header is
absent, in which case `parseInt` yields `NaN`, which is falsy like `0`),
and the body's byte chunks in arrival order. -/
structure DownloadResponse where
  status : Nat
  errorField : Option Str
  contentLength : Option Nat
  chunks : List (List Nat)
deriving DecidableEq

/-- Fuel-indexed floor logarithm base 1024 (the fuel bounds the number of
divisions). -/
def log1024F : Nat → Nat → Nat
  | 0, _ => 0
  | fuel + 1, n => if n < 1024 then 0 else log1024F fuel (n / 1024) + 1

/-- `Math.floor(Math.log(b) / Math.log(1024))` for `b ≥ 1`: the floor
logarithm base 1024. -/
def log1024 (n : Nat) : Nat := log1024F n n

/-- `formatFileSize` (App.jsx lines 54-59).  The truthiness guard is exact;
the positive branch's `Math.log`-based unit index and `toFixed(2)` are
modelled with exact integer arithmetic (floor logarithm and half-up
rounding of hundredths). -/
def formatFileSize (bytes : Option Nat) : Str :=
  if jsTruthyNum bytes = false then "Unknown".toList
  else
    let b := jsOrNum bytes
    let i := log1024 b
    let hundredths := jsRound (b * 100) (1024 ^ i)
    let unit := (["Bytes".toList, "KB".toList, "MB".toList, "GB".toList].get? i).getD
      ("undefined".toList)
    toDec (hundredths / 100) ++ '.' ::
      (if hundredths % 100 < 10 then '0' :: toDec (hundredths % 100)
       else toDec (hundredths % 100)) ++ ' ' :: unit

/-- JS `padStart 2 '0'`. -/
def padStart2 (l : Str) : Str :=
  if l.length < 2 then List.replicate (2 - l.length) '0' ++ l else l

/-- `formatDuration` (App.jsx lines 61-66). -/
def formatDuration (seconds : Option Nat) : Str :=
  if jsTruthyNum seconds = false then "N/A".toList
  else
    let s := jsOrNum seconds
    toDec (s / 60) ++ ':' :: padStart2 (toDec (s % 60))

/-- `Number.prototype.toLocaleString` digit grouping (en-US style), on a
reversed digit list: groups of three from the right separated by commas. -/
def groupRev : Str → Str
  | d1 :: d2 :: d3 :: r1 :: rest => d1 :: d2 :: d3 :: ',' :: groupRev (r1 :: rest)
  | l => l

/-- `formatNumber` (App.jsx lines 68-71). -/
def formatNumber (num : Option Nat) : Str :=
  if jsTruthyNum num = false then "0".toList
  else (groupRev (toDec (jsOrNum num)).reverse).reverse

/-- The synchronous state updates at the start of a metadata fetch attempt,
after validation has passed (App.jsx lines 84-87): `setLoading(true)`,
`setError('')`, `setSuccess('')`, `setMetadata(null)`. -/
def fetchAttemptStart (s : AppState) : AppState :=
  { s with loading := true, error := [], success := [], metadata := none }

/-- The synchronous state updates at the start of a download attempt
(App.jsx lines 119-121): `setDownloading(true)`, `setError('')`,
`setProgress(0)`. -/
def downloadAttemptStart (s : AppState) : AppState :=
  { s with downloading := true, error := [], progress := 0 }

/-- `fetchMetadata` (App.jsx lines 73-116), given the response the server
would return if contacted.  Returns the final state and whether a network
call was made. -/
def fetchMetadata (s : AppState) (resp : MetadataResponse) : AppState × Bool :=
  if jsTrim s.mediaUrl = [] then
    ({ s with error := "Please enter a valid media URL".toList }, false)
  else if jsTrim s.solidarityName = [] then
    ({ s with error := "Please enter the solidarity campaign name".toList }, false)
  else
    let s1 := fetchAttemptStart s
    if respOk resp.status then
      ({ s1 with metadata := some resp.body,
                 success := "Media information loaded successfully!".toList,
                 loading := false }, true)
    else
      ({ s1 with error := jsOrStr resp.errorField ("Failed to fetch metadata".toList),
                 loading := false }, true)

/-- State carried through the `reader.read()` loop of `downloadMedia`
(App.jsx lines 143-158): the accumulated `chunks` array, the `loaded`
byte counter, and the sequence of `setProgress` calls issued in the loop. -/
structure LoopOut where
  chunks : List (List Nat)
  loaded : Nat
  events : List Nat
deriving DecidableEq

/-- One-per-chunk progress report: `if (total) setProgress(Math.round((loaded
/ total) * 100))`; `total` is falsy when the header is absent (`NaN`) or
`0`. -/
def progressOf (total : Option Nat) (loaded : Nat) : List Nat :=
  match total with
  | some (t + 1) => [jsRound (loaded * 100) (t + 1)]
  | _ => []

/-- The chunk-reading loop of `downloadMedia` (App.jsx lines 148-158). -/
def readLoop (total : Option Nat) : List (List Nat) → LoopOut → LoopOut
  | [], st => st
  | v :: rest, st =>
      let loaded := st.loaded + v.length
      readLoop total rest
        { chunks := st.chunks ++ [v], loaded := loaded,
          events := st.events ++ progressOf total loaded }

/-- The progress values `setProgress` receives during the read loop for a
given header value and chunk sequence. -/
def loopEvents (total : Option Nat) (cs : List (List Nat)) : List Nat :=
  (readLoop total cs ⟨[], 0, []⟩).events

/-- `new Blob(chunks)`: concatenation of the chunks in array order. -/
def concatChunks : List (List Nat) → List Nat
  | [] => []
  | v :: rest => v ++ concatChunks rest

/-- `downloadMedia` (App.jsx lines 118-179), given the response the server
returns.  Result: final state, the assembled artifact bytes when one is
produced, and whether a network call was made (the function performs no
input validation, so it always is). -/
def downloadMedia (s : AppState) (resp : DownloadResponse) :
    AppState × Option (List Nat) × Bool :=
  let s1 := downloadAttemptStart s
  if respOk resp.status then
    let out := readLoop resp.contentLength resp.chunks ⟨[], 0, []⟩
    let artifact := concatChunks out.chunks
    ({ s1 with success := "Media archived successfully for the movement!".toList,
               progress := 100,
               downloading := false }, some artifact, true)
  else
    ({ s1 with error := jsOrStr resp.errorField ("Download failed".toList),
               downloading := false }, none, true)

/-- A JSON value the export object can hold: a string or an integer-valued
number. -/
inductive JsonVal where
  | str (s : Str)
  | num (n : Nat)
deriving DecidableEq

/-- JSON string escaping as `JSON.stringify` performs it, for the escapes
the component's data can contain (quote, backslash, newline; the remaining
control-character escapes are analogous and omitted). -/
def escJson : Str → Str
  | [] => []
  | c :: rest =>
      (if c = '"' then ['\\', '"']
       else if c = '\\' then ['\\', '\\']
       else if c = '\n' then ['\\', 'n']
       else [c]) ++ escJson rest

/-- Serialization of one JSON value. -/
def renderJson : JsonVal → Str
  | .str s => '"' :: escJson s ++ ['"']
  | .num n => toDec n

/-- The object literal built by `downloadMetadataJSON` (App.jsx lines
184-196), as an ordered key/value list; a `none` value is a field whose
JS value is `undefined`, which `JSON.stringify` omits. -/
def jsonPairs (m : MediaMetadata) (name now : Str) : List (Str × Option JsonVal) :=
  [ ("solidarity_campaign".toList, some (.str name)),
    ("platform".toList, some (.str (jsOrStr m.platform ("unknown".toList)))),
    ("title".toList, m.title.map .str),
    ("uploader".toList, m.uploader.map .str),
    ("url".toList, m.url.map .str),
    ("description".toList, m.description.map .str),
    ("duration".toList, m.duration.map .num),
    ("viewCount".toList, m.viewCount.map .num),
    ("likeCount".toList, m.likeCount.map .num),
    ("thumbnail".toList, m.thumbnail.map .str),
    ("archived_at".toList, some (.str now)) ]

/-- The keys that survive into the serialized object (fields whose value is
not `undefined`), in construction order. -/
def presentKeys (ps : List (Str × Option JsonVal)) : List Str :=
  ps.filterMap (fun p => if p.2.isSome then some p.1 else none)

/-- Concatenation of a list of strings with a separator (`Array.join`). -/
def joinSep (sep : Str) : List Str → Str
  | [] => []
  | [r] => r
  | r :: r2 :: rest => r ++ sep ++ joinSep sep (r2 :: rest)

/-- `JSON.stringify(data, null, 2)` on an object whose fields may be
`undefined`: the defined fields are printed in order, one per line, with
two-space indentation. -/
def stringify2 (ps : List (Str × Option JsonVal)) : Str :=
  match (ps.filterMap (fun p => p.2.map (fun v => (p.1, v)))) with
  | [] => "\x7b\x7d".toList
  | l =>
      '\x7b' :: '\n' ::
        joinSep (",\n".toList)
          (l.map (fun kv => "  ".toList ++ '"' :: escJson kv.1 ++ "\": ".toList ++
            renderJson kv.2)) ++
        '\n' :: "\x7d".toList

/-- `downloadMetadataJSON` (App.jsx lines 181-207): no effect when no
metadata is stored; otherwise produces the pretty-printed JSON file content.
The component state is returned unchanged — the function calls no state
setter. -/
def downloadMetadataJSON (s : AppState) (now : Str) : AppState × Option Str :=
  match s.metadata with
  | none => (s, none)
  | some m => (s, some (stringify2 (jsonPairs m s.solidarityName now)))

/-- `metadata.title.replace(/"/g, '""')` (App.jsx line 216). -/
def escapeQuotes : Str → Str
  | [] => []
  | c :: rest => (if c = '"' then ['"', '"'] else [c]) ++ escapeQuotes rest

/-- The row list built by `downloadMetadataCSV` (App.jsx lines 212-223),
one string per line before the `join('\n')`. -/
def csvRows (m : MediaMetadata) (name now : Str) : List Str :=
  [ "Field,Value".toList,
    "Solidarity Campaign,".toList ++ '"' :: name ++ ['"'],
    "Platform,".toList ++ jsOrStr m.platform ("unknown".toList),
    "Title,".toList ++ '"' :: escapeQuotes (jsOrStr m.title []) ++ ['"'],
    "Uploader,".toList ++ jsOrStr m.uploader ("Unknown".toList),
    "URL,".toList ++ tmplStr m.url,
    "Views,".toList ++ toDec (jsOrNum m.viewCount),
    "Likes,".toList ++ toDec (jsOrNum m.likeCount),
    "Duration,".toList ++ toDec (jsOrNum m.duration),
    "Archived At,".toList ++ now ]

/-- `rows.join('\n')`. -/
def joinNl : List Str → Str
  | [] => []
  | [r] => r
  | r :: r2 :: rest => r ++ '\n' :: joinNl (r2 :: rest)

/-- `downloadMetadataCSV` (App.jsx lines 209-234): no effect when no
metadata is stored; otherwise produces the CSV file content.  As with the
JSON export, no state setter is called. -/
def downloadMetadataCSV (s : AppState) (now : Str) : AppState × Option Str :=
  match s.metadata with
  | none => (s, none)
  | some m => (s, some (joinNl (csvRows m s.solidarityName now)))

/-- Splitting a string at every occurrence of a character (how a line-based
CSV reader recovers the rows of the exported file). -/
def splitOnChar (sep : Char) : Str → List Str
  | [] => [[]]
  | c :: rest =>
      if c = sep then [] :: splitOnChar sep rest
      else
        match splitOnChar sep rest with
        | [] => [[c]]
        | f :: fs => (c :: f) :: fs

/-- RFC-4180 style field reader for an unquoted CSV field: everything up to
the next separator. -/
def readUnquoted : Str → Str × Str
  | [] => ([], [])
  | c :: rest =>
      if c = ',' then ([], c :: rest)
      else
        let p := readUnquoted rest
        (c :: p.1, p.2)

/-- RFC-4180 style reader for the body of a quoted CSV field (the opening
quote already consumed): `""` is an escaped quote, a lone `"` closes the
field. -/
def readQuoted : Str → Str × Str
  | [] => ([], [])
  | c :: rest =>
      if c = '"' then
        match rest with
        | '"' :: rest2 =>
            let p := readQuoted rest2
            ('"' :: p.1, p.2)
        | _ => ([], rest)
      else
        let p := readQuoted rest
        (c :: p.1, p.2)

/-- Fuel-indexed CSV record parser: splits one record into its fields,
honouring quoting.  The fuel bounds the number of fields. -/
def parseRecordF : Nat → Str → List Str
  | 0, _ => []
  | fuel + 1, l =>
      let p := if l.head? = some '"' then readQuoted l.tail else readUnquoted l
      if p.2.head? = some ',' then p.1 :: parseRecordF fuel p.2.tail
      else [p.1]

/-- CSV record parser with enough fuel for any record. -/
def parseRecord (l : Str) : List Str := parseRecordF (l.length + 1) l

/-- The label column of a CSV row: the text before the first separator. -/
def labelOf (r : Str) : Str := r.takeWhile (fun c => c != ',')

/-- The per-chunk progress values for a truthy total `t`, starting from
`loaded` bytes already received: after each chunk the loop emits
`Math.round((loaded / total) * 100)`. -/
def eventsFrom (t : Nat) : Nat → List (List Nat) → List Nat
  | _, [] => []
  | loaded, v :: rest =>
      jsRound ((loaded + v.length) * 100) t ::
        eventsFrom t (loaded + v.length) rest

/-! ### Concrete fixtures used by witnesses and counterexamples -/

/-- A metadata value with every optional field unset. -/
def mNone : MediaMetadata :=
  { title := none, uploader := none, url := none, platform := none,
    description := none, duration := none, viewCount := none, likeCount := none,
    thumbnail := none, size := none, mimeType := none, extension := none,
    filename := none }

/-- A metadata value whose uploader contains the CSV separator. -/
def mComma : MediaMetadata :=
  { mNone with title := some ("T".toList), uploader := some ("a,b".toList),
               url := some ("u".toList) }

/-- A state with a whitespace-only media URL and a stale success message. -/
def stEx : AppState :=
  { mediaUrl := "   ".toList, metadata := none, loading := false,
    downloading := false, progress := 0, error := [],
    success := "old".toList, solidarityName := "Camp".toList }

/-- A state that passes input validation. -/
def stGood : AppState :=
  { stEx with mediaUrl := "https://e.x/v".toList, metadata := some mNone }

/-- A failed metadata response carrying no error field. -/
def mrFail : MetadataResponse := ⟨500, none, mNone⟩

/-- A successful download response without a `Content-Length` header. -/
def drNoLen : DownloadResponse := ⟨200, none, none, [[7]]⟩

/-- A successful download response delivering the stream `[1,2,3,4,5]` in
three uneven chunks under a correct `Content-Length`. -/
def drSplit : DownloadResponse := ⟨200, none, some 5, [[1, 2], [3], [4, 5]]⟩

/-- The 403 `\x7b"error":"blocked"\x7d` download response of the spec's
scenario. -/
def drBlocked : DownloadResponse := ⟨403, some ("blocked".toList), none, []⟩

/-- A metadata value with only the title set, the title being arbitrary. -/
def mTitle (t : Str) : MediaMetadata := { mNone with title := some t }

/-- A metadata value with every field the exports can read set. -/
def mFull : MediaMetadata :=
  { title := some ("Rally".toList), uploader := some ("Org".toList),
    url := some ("https://e.x/v".toList), platform := some ("youtube".toList),
    description := some ("d".toList), duration := some 61, viewCount := some 1500,
    likeCount := some 2, thumbnail := some ("t".toList), size := some 5,
    mimeType := none, extension := none, filename := none }

/-! ### C1: artifact = concatenation of chunks -/

/-- The read loop appends each received chunk, in order, to the chunk
accumulator. -/
theorem readLoop_chunks (total : Option Nat) (cs : List (List Nat)) :
    ∀ st : LoopOut, (readLoop total cs st).chunks = st.chunks ++ cs := by
  induction cs with
  | nil => intro st; simp [readLoop]
  | cons v rest ih => intro st; simp [readLoop, ih]

/-- C1: for every sequence of chunks read from the download response body,
the assembled artifact's byte sequence equals the concatenation of those
chunks in arrival order — any chunking of a stream reproduces the stream. -/
theorem artifact_eq_concat_of_chunks (s : AppState) (dr : DownloadResponse)
    (stream : List Nat) (hok : respOk dr.status = true)
    (hsplit : concatChunks dr.chunks = stream) :
    (downloadMedia s dr).2.1 = some stream := by
  simp only [downloadMedia, hok, if_true]
  rw [readLoop_chunks dr.contentLength dr.chunks ⟨[], 0, []⟩]
  simp [hsplit]

/-- Witness for C1: a 5-byte stream delivered in three uneven chunks is
reassembled exactly. -/
theorem artifact_eq_concat_witness :
    (downloadMedia stGood drSplit).2.1 = some [1, 2, 3, 4, 5] :=
  artifact_eq_concat_of_chunks stGood drSplit [1, 2, 3, 4, 5] (by decide) (by decide)

/-! ### C3: input validation -/

/-- Counterexample for C3 as stated: with a whitespace-only media URL the
download is not rejected — `downloadMedia` performs no validation and the
network call is made. -/
theorem download_validation_claim_false :
    jsTrim stEx.mediaUrl = [] ∧ (downloadMedia stEx drNoLen).2.2 = true := by
  decide

/-- C3 amended: the metadata fetch rejects empty/whitespace-only inputs
without a network call and proceeds when both are non-empty after trimming,
but the download function performs no validation and always issues the
network request. -/
theorem validation_amended (s : AppState) (mr : MetadataResponse)
    (dr : DownloadResponse) :
    (jsTrim s.mediaUrl = [] →
      fetchMetadata s mr =
        ({ s with error := "Please enter a valid media URL".toList }, false))
    ∧ (jsTrim s.mediaUrl ≠ [] → jsTrim s.solidarityName = [] →
      fetchMetadata s mr =
        ({ s with error := "Please enter the solidarity campaign name".toList }, false))
    ∧ (jsTrim s.mediaUrl ≠ [] → jsTrim s.solidarityName ≠ [] →
      (fetchMetadata s mr).2 = true)
    ∧ (downloadMedia s dr).2.2 = true := by
  refine ⟨?_, ?_, ?_, ?_⟩
  · intro h; simp [fetchMetadata, h]
  · intro h1 h2; simp [fetchMetadata, h1, h2]
  · intro h1 h2
    rcases Bool.eq_false_or_eq_true (respOk mr.status) with h3 | h3 <;>
      simp [fetchMetadata, h1, h2, h3]
  · rcases Bool.eq_false_or_eq_true (respOk dr.status) with h3 | h3 <;>
      simp [downloadMedia, h3]

/-- Witness for C3 amended: a whitespace-only URL blocks the fetch without
a network call, while the download is issued regardless. -/
theorem validation_amended_witness :
    fetchMetadata stEx mrFail =
      ({ stEx with error := "Please enter a valid media URL".toList }, false)
    ∧ (downloadMedia stEx drNoLen).2.2 = true :=
  ⟨(validation_amended stEx mrFail drNoLen).1 (by decide),
   (validation_amended stEx mrFail drNoLen).2.2.2⟩

/-! ### C5: error propagation from non-success responses -/

/-- C5: on any non-success response from either endpoint, the client fails
with the server-supplied `error` message (generic fallback when the body
carries none), stores no metadata / produces no artifact, and clears the
loading/downloading flag. -/
theorem error_message_propagation (s : AppState) (mr : MetadataResponse)
    (dr : DownloadResponse)
    (hurl : jsTrim s.mediaUrl ≠ []) (hname : jsTrim s.solidarityName ≠ [])
    (hmok : respOk mr.status = false) (hdok : respOk dr.status = false) :
    (∀ msg, mr.errorField = some msg → msg ≠ [] →
      (fetchMetadata s mr).1.error = msg)
    ∧ (mr.errorField = none →
      (fetchMetadata s mr).1.error = "Failed to fetch metadata".toList)
    ∧ (∀ msg, dr.errorField = some msg → msg ≠ [] →
      (downloadMedia s dr).1.error = msg)
    ∧ (dr.errorField = none →
      (downloadMedia s dr).1.error = "Download failed".toList)
    ∧ (fetchMetadata s mr).1.metadata = none
    ∧ (downloadMedia s dr).2.1 = none
    ∧ (fetchMetadata s mr).1.loading = false
    ∧ (downloadMedia s dr).1.downloading = false := by
  refine ⟨?_, ?_, ?_, ?_, ?_, ?_, ?_, ?_⟩
  · intro msg hm hne
    simp [fetchMetadata, hurl, hname, hmok, fetchAttemptStart, hm, jsOrStr, hne]
  · intro hm
    simp [fetchMetadata, hurl, hname, hmok, fetchAttemptStart, hm, jsOrStr]
  · intro msg hm hne
    simp [downloadMedia, hdok, downloadAttemptStart, hm, jsOrStr, hne]
  · intro hm
    simp [downloadMedia, hdok, downloadAttemptStart, hm, jsOrStr]
  · simp [fetchMetadata, hurl, hname, hmok, fetchAttemptStart]
  · simp [downloadMedia, hdok]
  · simp [fetchMetadata, hurl, hname, hmok, fetchAttemptStart]
  · simp [downloadMedia, hdok, downloadAttemptStart]

/-- Witness for C5: the spec's scenario — status 403 with body
`\x7b"error":"blocked"\x7d` yields the error message `blocked`, no
artifact, and the downloading flag cleared. -/
theorem error_message_propagation_witness :
    (downloadMedia stGood drBlocked).1.error = "blocked".toList
    ∧ (downloadMedia stGood drBlocked).2.1 = none
    ∧ (downloadMedia stGood drBlocked).1.downloading = false := by
  have h := error_message_propagation stGood mrFail drBlocked
    (by decide) (by decide) (by decide) (by decide)
  exact ⟨h.2.2.1 ("blocked".toList) rfl (by decide), h.2.2.2.2.2.1, h.2.2.2.2.2.2.2⟩

/-! ### C8: state resets at attempt start -/

/-- Counterexample for C8 as stated: starting a download does not reset the
success message — a stale success text survives the start of a download
attempt. -/
theorem attempt_reset_claim_false :
    (downloadAttemptStart stEx).success = "old".toList
    ∧ ("old".toList : Str) ≠ [] := by
  decide

/-- C8 amended: a metadata fetch attempt resets error, success and the
stored metadata and raises the loading flag, leaving all other state
untouched; a download attempt resets error and progress and raises the
downloading flag, leaving the success message (and everything else)
untouched. -/
theorem attempt_start_frame_amended (s : AppState) :
    (fetchAttemptStart s).error = []
    ∧ (fetchAttemptStart s).success = []
    ∧ (fetchAttemptStart s).metadata = none
    ∧ (fetchAttemptStart s).loading = true
    ∧ (fetchAttemptStart s).progress = s.progress
    ∧ (fetchAttemptStart s).downloading = s.downloading
    ∧ (fetchAttemptStart s).mediaUrl = s.mediaUrl
    ∧ (fetchAttemptStart s).solidarityName = s.solidarityName
    ∧ (downloadAttemptStart s).error = []
    ∧ (downloadAttemptStart s).progress = 0
    ∧ (downloadAttemptStart s).downloading = true
    ∧ (downloadAttemptStart s).success = s.success
    ∧ (downloadAttemptStart s).metadata = s.metadata
    ∧ (downloadAttemptStart s).loading = s.loading
    ∧ (downloadAttemptStart s).mediaUrl = s.mediaUrl
    ∧ (downloadAttemptStart s).solidarityName = s.solidarityName :=
  ⟨rfl, rfl, rfl, rfl, rfl, rfl, rfl, rfl, rfl, rfl, rfl, rfl, rfl, rfl, rfl, rfl⟩

/-! ### C10: exports are no-ops without metadata -/

/-- C10: when no metadata is stored, both exports return immediately —
no file content is produced and the state is unchanged. -/
theorem export_noop_without_metadata (s : AppState) (now : Str)
    (h : s.metadata = none) :
    downloadMetadataJSON s now = (s, none)
    ∧ downloadMetadataCSV s now = (s, none) := by
  simp [downloadMetadataJSON, downloadMetadataCSV, h]

/-- Witness for C10: on a concrete metadata-free state both exports produce
nothing and leave the state as it was. -/
theorem export_noop_without_metadata_witness :
    downloadMetadataJSON stEx [] = (stEx, none)
    ∧ downloadMetadataCSV stEx [] = (stEx, none) :=
  export_noop_without_metadata stEx [] (by decide)

/-! ### C2: progress reporting -/

/-- With a truthy total the read loop's progress events are exactly the
per-chunk rounded percentages. -/
theorem readLoop_events_pos (t : Nat) (cs : List (List Nat)) :
    ∀ st : LoopOut, (readLoop (some (t + 1)) cs st).events =
      st.events ++ eventsFrom (t + 1) st.loaded cs := by
  induction cs with
  | nil => intro st; simp [readLoop, eventsFrom]
  | cons v rest ih => intro st; simp [readLoop, ih, eventsFrom, progressOf]

/-- Without a `Content-Length` header the loop emits no progress events. -/
theorem readLoop_events_none (cs : List (List Nat)) :
    ∀ st : LoopOut, (readLoop none cs st).events = st.events := by
  induction cs with
  | nil => intro st; simp [readLoop]
  | cons v rest ih => intro st; simp [readLoop, ih, progressOf]

/-- With a declared length of `0` (falsy) the loop emits no progress
events either. -/
theorem readLoop_events_zero (cs : List (List Nat)) :
    ∀ st : LoopOut, (readLoop (some 0) cs st).events = st.events := by
  induction cs with
  | nil => intro st; simp [readLoop]
  | cons v rest ih => intro st; simp [readLoop, ih, progressOf]

/-- Rounding is monotone in the numerator. -/
theorem jsRound_mono (b : Nat) {a a' : Nat} (h : a ≤ a') :
    jsRound a b ≤ jsRound a' b :=
  Nat.div_le_div_right (by omega)

/-- A rounded percentage of at most the whole is at most 100. -/
theorem jsRound_le_100 {l t : Nat} (ht : 0 < t) (h : l ≤ t) :
    jsRound (l * 100) t ≤ 100 := by
  have h1 : jsRound (l * 100) t ≤ jsRound (t * 100) t :=
    jsRound_mono t (Nat.mul_le_mul_right 100 h)
  have h2 : jsRound (t * 100) t = 100 := by
    show (2 * (t * 100) + t) / (2 * t) = 100
    have he : 2 * (t * 100) + t = t + (2 * t) * 100 := by ring
    rw [he, Nat.add_mul_div_left _ _ (by omega : 0 < 2 * t),
      Nat.div_eq_of_lt (by omega : t < 2 * t)]
  omega

/-- Every event is a percentage of a byte count that stays within the
declared total, hence at most 100. -/
theorem eventsFrom_le_100 {t : Nat} (ht : 0 < t) :
    ∀ (cs : List (List Nat)) (l : Nat),
      l + (concatChunks cs).length ≤ t →
      ∀ x ∈ eventsFrom t l cs, x ≤ 100 := by
  intro cs
  induction cs with
  | nil => intro l _ x hx; simp [eventsFrom] at hx
  | cons v rest ih =>
      intro l hle x hx
      have hlen : v.length + (concatChunks rest).length ≤ t - l := by
        have : concatChunks (v :: rest) = v ++ concatChunks rest := rfl
        rw [this] at hle; simp at hle; omega
      simp only [eventsFrom, List.mem_cons] at hx
      rcases hx with hx | hx
      · exact hx ▸ jsRound_le_100 ht (by omega)
      · exact ih (l + v.length) (by omega) x hx

/-- Every later event dominates the rounded percentage of the bytes
already received. -/
theorem eventsFrom_head_ge {t : Nat} :
    ∀ (cs : List (List Nat)) (l : Nat) (x : Nat),
      x ∈ eventsFrom t l cs → jsRound (l * 100) t ≤ x := by
  intro cs
  induction cs with
  | nil => intro l x hx; simp [eventsFrom] at hx
  | cons v rest ih =>
      intro l x hx
      simp only [eventsFrom, List.mem_cons] at hx
      rcases hx with hx | hx
      · exact hx ▸ jsRound_mono t (Nat.mul_le_mul_right 100 (by omega))
      · exact le_trans
          (jsRound_mono t (Nat.mul_le_mul_right 100 (by omega : l ≤ l + v.length)))
          (ih (l + v.length) x hx)

/-- The event sequence is non-decreasing step by step. -/
theorem eventsFrom_chain {t : Nat} :
    ∀ (cs : List (List Nat)) (l : Nat),
      List.Chain' (· ≤ ·) (eventsFrom t l cs) := by
  intro cs
  induction cs with
  | nil => intro l; simp [eventsFrom]
  | cons v rest ih =>
      intro l
      rw [eventsFrom, List.chain'_cons']
      refine ⟨fun y hy => ?_, ih (l + v.length)⟩
      exact eventsFrom_head_ge rest (l + v.length) y (List.mem_of_mem_head? hy)

/-- Counterexample for C2 as stated: (a) with a declared total of 1 byte
and 2 bytes received, the reported progress is 200, outside [0,100];
(b) with no `Content-Length` header at all, a successful download still
reports progress — the final `setProgress(100)` fires regardless of the
header, moving progress from 0 to 100. -/
theorem progress_claim_false :
    loopEvents (some 1) [[0, 0]] = [200]
    ∧ 100 < (200 : Nat)
    ∧ drNoLen.contentLength = none
    ∧ stGood.progress = 0
    ∧ (downloadMedia stGood drNoLen).1.progress = 100 := by
  decide

/-- C2 amended: when a truthy `Content-Length` total is supplied and the
received bytes never exceed it, the in-loop progress values are the
per-chunk rounded percentages, monotonically non-decreasing and bounded by
100; when the header is absent (or declares 0) no progress is reported
during the loop; but on successful completion the progress is set to 100
regardless of the header. -/
theorem progress_events_amended (t : Nat) (cs : List (List Nat))
    (s : AppState) (dr : DownloadResponse) (ht : 0 < t)
    (hle : (concatChunks cs).length ≤ t) (hok : respOk dr.status = true) :
    loopEvents (some t) cs = eventsFrom t 0 cs
    ∧ List.Pairwise (· ≤ ·) (loopEvents (some t) cs)
    ∧ (∀ p ∈ loopEvents (some t) cs, p ≤ 100)
    ∧ loopEvents none cs = []
    ∧ loopEvents (some 0) cs = []
    ∧ (downloadMedia s dr).1.progress = 100 := by
  obtain ⟨t', rfl⟩ : ∃ t', t = t' + 1 := ⟨t - 1, by omega⟩
  have hev : loopEvents (some (t' + 1)) cs = eventsFrom (t' + 1) 0 cs := by
    simp [loopEvents, readLoop_events_pos t' cs ⟨[], 0, []⟩]
  refine ⟨hev, ?_, ?_, ?_, ?_, ?_⟩
  · rw [hev, List.chain'_iff_pairwise.symm]
    exact eventsFrom_chain cs 0
  · rw [hev]
    exact eventsFrom_le_100 ht cs 0 (by omega)
  · simp [loopEvents, readLoop_events_none cs ⟨[], 0, []⟩]
  · simp [loopEvents, readLoop_events_zero cs ⟨[], 0, []⟩]
  · simp [downloadMedia, hok]

/-- Witness for C2 amended: a 3-byte stream in two chunks under
`Content-Length: 3` yields events [67, 100]; the completed download ends
at progress 100. -/
theorem progress_events_amended_witness :
    loopEvents (some 3) [[1], [2, 3]] = eventsFrom 3 0 [[1], [2, 3]]
    ∧ List.Pairwise (· ≤ ·) (loopEvents (some 3) [[1], [2, 3]])
    ∧ (∀ p ∈ loopEvents (some 3) [[1], [2, 3]], p ≤ 100)
    ∧ loopEvents none [[1], [2, 3]] = []
    ∧ loopEvents (some 0) [[1], [2, 3]] = []
    ∧ (downloadMedia stGood drSplit).1.progress = 100 :=
  progress_events_amended 3 [[1], [2, 3]] stGood drSplit
    (by decide) (by decide) (by decide)

/-- C9: for the input value 0 all three formatters return their
missing-value outputs, and 0 is indistinguishable from an absent value. -/
theorem zero_formatter_outputs :
    formatDuration (some 0) = "N/A".toList ∧
    formatFileSize (some 0) = "Unknown".toList ∧
    formatNumber (some 0) = "0".toList ∧
    formatDuration none = formatDuration (some 0) ∧
    formatFileSize none = formatFileSize (some 0) ∧
    formatNumber none = formatNumber (some 0) := by
  decide

set_option maxRecDepth 4000

/-! ### C7: CSV export shape -/

/-- A label followed by a separator and anything is recovered by
`labelOf`. -/
theorem takeWhile_no_comma (pre rest : Str) (h : ',' ∉ pre) :
    labelOf (pre ++ ',' :: rest) = pre := by
  induction pre with
  | nil => simp [labelOf, List.takeWhile]
  | cons c p ih =>
      simp only [List.mem_cons, not_or] at h
      simp only [labelOf] at ih
      simp only [labelOf, List.cons_append, List.takeWhile]
      have hc : (c != ',') = true := bne_iff_ne.mpr (fun hh => h.1 hh.symm)
      rw [hc]
      simp [ih h.2]

/-- C7: the CSV export writes the export of the stored metadata, a
two-column table of exactly ten rows headed `Field,Value` whose label
column is the fixed ordered field list, with the documented defaults for
missing platform, uploader and numeric fields. -/
theorem csv_export_shape (m : MediaMetadata) (s : AppState) (name now : Str)
    (h : s.metadata = some m) :
    (downloadMetadataCSV s now).2 = some (joinNl (csvRows m s.solidarityName now))
    ∧ (downloadMetadataCSV s now).1 = s
    ∧ (csvRows m name now).length = 10
    ∧ (csvRows m name now).get? 0 = some ("Field,Value".toList)
    ∧ (csvRows m name now).map labelOf =
      ["Field".toList, "Solidarity Campaign".toList, "Platform".toList,
       "Title".toList, "Uploader".toList, "URL".toList, "Views".toList,
       "Likes".toList, "Duration".toList, "Archived At".toList]
    ∧ (m.platform = none →
      (csvRows m name now).get? 2 = some ("Platform,unknown".toList))
    ∧ (m.uploader = none →
      (csvRows m name now).get? 4 = some ("Uploader,Unknown".toList))
    ∧ (m.viewCount = none →
      (csvRows m name now).get? 6 = some ("Views,0".toList))
    ∧ (m.likeCount = none →
      (csvRows m name now).get? 7 = some ("Likes,0".toList))
    ∧ (m.duration = none →
      (csvRows m name now).get? 8 = some ("Duration,0".toList)) := by
  refine ⟨?_, ?_, ?_, ?_, ?_, ?_, ?_, ?_, ?_, ?_⟩
  · simp [downloadMetadataCSV, h]
  · simp [downloadMetadataCSV, h]
  · simp [csvRows]
  · rfl
  · simp only [csvRows, List.map, List.cons.injEq]
    refine ⟨?_, ?_, ?_, ?_, ?_, ?_, ?_, ?_, ?_, ?_, trivial⟩
    · exact takeWhile_no_comma ("Field".toList) ("Value".toList) (by decide)
    · exact takeWhile_no_comma ("Solidarity Campaign".toList) _ (by decide)
    · exact takeWhile_no_comma ("Platform".toList) _ (by decide)
    · exact takeWhile_no_comma ("Title".toList) _ (by decide)
    · exact takeWhile_no_comma ("Uploader".toList) _ (by decide)
    · exact takeWhile_no_comma ("URL".toList) _ (by decide)
    · exact takeWhile_no_comma ("Views".toList) _ (by decide)
    · exact takeWhile_no_comma ("Likes".toList) _ (by decide)
    · exact takeWhile_no_comma ("Duration".toList) _ (by decide)
    · exact takeWhile_no_comma ("Archived At".toList) _ (by decide)
  · intro hp; simp only [csvRows, hp, jsOrStr]; rfl
  · intro hp; simp only [csvRows, hp, jsOrStr]; rfl
  · intro hp; simp only [csvRows, hp, jsOrNum]; rfl
  · intro hp; simp only [csvRows, hp, jsOrNum]; rfl
  · intro hp; simp only [csvRows, hp, jsOrNum]; rfl

/-- Witness for C7: on a state holding an all-optional-missing metadata the
export emits the row list and the defaulted rows read `Platform,unknown`,
`Uploader,Unknown` and `Views,0`. -/
theorem csv_export_shape_witness :
    (downloadMetadataCSV stGood ("2025".toList)).2 =
      some (joinNl (csvRows mNone stGood.solidarityName ("2025".toList)))
    ∧ (csvRows mNone ("Camp".toList) ("2025".toList)).get? 2 =
      some ("Platform,unknown".toList)
    ∧ (csvRows mNone ("Camp".toList) ("2025".toList)).get? 4 =
      some ("Uploader,Unknown".toList)
    ∧ (csvRows mNone ("Camp".toList) ("2025".toList)).get? 6 =
      some ("Views,0".toList) :=
  ⟨(csv_export_shape mNone stGood ("Camp".toList) ("2025".toList) rfl).1,
   (csv_export_shape mNone stGood ("Camp".toList) ("2025".toList) rfl).2.2.2.2.2.1 rfl,
   (csv_export_shape mNone stGood ("Camp".toList) ("2025".toList) rfl).2.2.2.2.2.2.1 rfl,
   (csv_export_shape mNone stGood ("Camp".toList) ("2025".toList) rfl).2.2.2.2.2.2.2.1 rfl⟩

/-! ### C6: JSON export shape -/

/-- The present keys are a sublist of the full ordered key list. -/
theorem presentKeys_sublist (ps : List (Str × Option JsonVal)) :
    List.Sublist (presentKeys ps) (ps.map Prod.fst) := by
  induction ps with
  | nil => simp [presentKeys]
  | cons p rest ih =>
      rcases hp : p.2.isSome with hv | hv
      · simpa [presentKeys, List.filterMap_cons, hp] using List.Sublist.cons p.1 ih
      · simpa [presentKeys, List.filterMap_cons, hp] using List.Sublist.cons₂ p.1 ih

/-- C6: the JSON export serializes the stored metadata as an object with
the eleven fields in their fixed order, two-space indented; fields whose
value is `undefined` are omitted rather than causing a failure, and the
always-set fields are always present. -/
theorem json_export_shape (m : MediaMetadata) (s : AppState) (now : Str)
    (h : s.metadata = some m) :
    (downloadMetadataJSON s now).2 =
      some (stringify2 (jsonPairs m s.solidarityName now))
    ∧ (downloadMetadataJSON s now).1 = s
    ∧ (jsonPairs m s.solidarityName now).map Prod.fst =
      ["solidarity_campaign".toList, "platform".toList, "title".toList,
       "uploader".toList, "url".toList, "description".toList,
       "duration".toList, "viewCount".toList, "likeCount".toList,
       "thumbnail".toList, "archived_at".toList]
    ∧ List.Sublist (presentKeys (jsonPairs m s.solidarityName now))
        ((jsonPairs m s.solidarityName now).map Prod.fst)
    ∧ "solidarity_campaign".toList ∈ presentKeys (jsonPairs m s.solidarityName now)
    ∧ "platform".toList ∈ presentKeys (jsonPairs m s.solidarityName now)
    ∧ "archived_at".toList ∈ presentKeys (jsonPairs m s.solidarityName now)
    ∧ (m.title = none →
      "title".toList ∉ presentKeys (jsonPairs m s.solidarityName now))
    ∧ (∀ v, m.title = some v →
      "title".toList ∈ presentKeys (jsonPairs m s.solidarityName now))
    ∧ stringify2 (jsonPairs mFull ("Camp".toList)
        ("2025-01-01T00:00:00.000Z".toList)) =
      ("\x7b\n  \"solidarity_campaign\": \"Camp\",\n  \"platform\": \"youtube\",\n  \"title\": \"Rally\",\n  \"uploader\": \"Org\",\n  \"url\": \"https://e.x/v\",\n  \"description\": \"d\",\n  \"duration\": 61,\n  \"viewCount\": 1500,\n  \"likeCount\": 2,\n  \"thumbnail\": \"t\",\n  \"archived_at\": \"2025-01-01T00:00:00.000Z\"\n\x7d").toList
    ∧ stringify2 (jsonPairs mNone ("C".toList) ("Z".toList)) =
      ("\x7b\n  \"solidarity_campaign\": \"C\",\n  \"platform\": \"unknown\",\n  \"archived_at\": \"Z\"\n\x7d").toList := by
  refine ⟨?_, ?_, ?_, ?_, ?_, ?_, ?_, ?_, ?_, ?_, ?_⟩
  · simp [downloadMetadataJSON, h]
  · simp [downloadMetadataJSON, h]
  · simp [jsonPairs]
  · exact presentKeys_sublist _
  · simp [presentKeys, jsonPairs, List.filterMap_cons]
  · simp [presentKeys, jsonPairs, List.filterMap_cons]
  · simp only [presentKeys, List.mem_filterMap]
    exact ⟨("archived_at".toList, some (JsonVal.str now)),
      by simp [jsonPairs], by simp⟩
  · intro ht
    simp only [presentKeys, jsonPairs, ht, List.mem_filterMap]
    intro hmem
    rcases hmem with ⟨p, hp, hsome⟩
    simp only [List.mem_cons, List.not_mem_nil, or_false] at hp
    rcases hp with h1|h1|h1|h1|h1|h1|h1|h1|h1|h1|h1 <;> subst h1 <;>
      simp at hsome
  · intro v hv
    simp only [presentKeys, List.mem_filterMap]
    exact ⟨("title".toList, some (JsonVal.str v)),
      by simp [jsonPairs, hv], by simp⟩
  · decide
  · decide

/-- Witness for C6: on a state holding an all-optional-missing metadata the
export emits the serialized pairs, and the unset `title` key is absent. -/
theorem json_export_shape_witness :
    (downloadMetadataJSON stGood ("Z".toList)).2 =
      some (stringify2 (jsonPairs mNone stGood.solidarityName ("Z".toList)))
    ∧ "title".toList ∉ presentKeys (jsonPairs mNone stGood.solidarityName ("Z".toList)) :=
  ⟨(json_export_shape mNone stGood ("Z".toList) rfl).1,
   (json_export_shape mNone stGood ("Z".toList) rfl).2.2.2.2.2.2.2.1 rfl⟩

/-! ### C4: CSV escaping and round-trip -/

/-- Splitting a separator-free string yields that string alone. -/
theorem splitOnChar_no_sep (sep : Char) (xs : Str) (h : sep ∉ xs) :
    splitOnChar sep xs = [xs] := by
  induction xs with
  | nil => simp [splitOnChar]
  | cons c rest ih =>
      simp only [List.mem_cons, not_or] at h
      simp only [splitOnChar]
      rw [if_neg (fun hh => h.1 hh.symm), ih h.2]

/-- Splitting peels off a leading separator-free segment. -/
theorem splitOnChar_append (sep : Char) (xs ys : Str) (h : sep ∉ xs) :
    splitOnChar sep (xs ++ sep :: ys) = xs :: splitOnChar sep ys := by
  induction xs with
  | nil => simp [splitOnChar]
  | cons c rest ih =>
      simp only [List.mem_cons, not_or] at h
      simp only [List.cons_append, splitOnChar, List.append_eq]
      rw [if_neg (fun hh => h.1 hh.symm), ih h.2]

/-- Splitting on newlines inverts the newline join when no row contains a
newline. -/
theorem joinNl_split (rows : List Str) (hne : rows ≠ [])
    (h : ∀ r ∈ rows, '\n' ∉ r) :
    splitOnChar '\n' (joinNl rows) = rows := by
  induction rows with
  | nil => exact absurd rfl hne
  | cons r rest ih =>
      cases rest with
      | nil => simp only [joinNl]; exact splitOnChar_no_sep '\n' r (h r (by simp))
      | cons r2 rest2 =>
          simp only [joinNl]
          rw [splitOnChar_append '\n' r _ (h r (by simp))]
          rw [ih (by simp) (fun x hx => h x (List.mem_cons_of_mem r hx))]

/-- Quote doubling introduces no newline. -/
theorem escapeQuotes_no_nl (t : Str) (h : '\n' ∉ t) : '\n' ∉ escapeQuotes t := by
  induction t with
  | nil => simp [escapeQuotes]
  | cons c rest ih =>
      simp only [List.mem_cons, not_or] at h
      simp only [escapeQuotes, List.mem_append, List.mem_cons, not_or]
      constructor
      · split
        · simp
        · simpa using h.1
      · exact ih h.2

/-- Reading a quote-doubled text followed by a closing quote recovers the
text exactly. -/
theorem readQuoted_escape (t : Str) :
    readQuoted (escapeQuotes t ++ ['"']) = (t, []) := by
  induction t with
  | nil => simp [escapeQuotes, readQuoted]
  | cons c rest ih =>
      by_cases hc : c = '"'
      · subst hc
        have hrw : escapeQuotes ('"' :: rest) ++ ['"'] =
            '"' :: '"' :: (escapeQuotes rest ++ ['"']) := by
          simp [escapeQuotes]
        rw [hrw]
        simp only [readQuoted]
        simp [ih]
      · have hrw : escapeQuotes (c :: rest) ++ ['"'] =
            c :: (escapeQuotes rest ++ ['"']) := by
          simp [escapeQuotes, hc]
        rw [hrw, readQuoted.eq_def]
        simp [hc, ih]

/-- Parsing the exported Title row recovers the title for any title text. -/
theorem parseRecordF_title (fuel : Nat) (t : Str) :
    parseRecordF (fuel + 2)
      ("Title,".toList ++ '"' :: escapeQuotes t ++ ['"']) =
      ["Title".toList, t] := by
  have h1 : ("Title,".toList ++ '"' :: escapeQuotes t ++ ['"'] : Str) =
      'T' :: 'i' :: 't' :: 'l' :: 'e' :: ',' :: '"' :: (escapeQuotes t ++ ['"']) := by
    simp
  have hu : readUnquoted ('T' :: 'i' :: 't' :: 'l' :: 'e' :: ',' :: '"' ::
      (escapeQuotes t ++ ['"'])) =
      ("Title".toList, ',' :: '"' :: (escapeQuotes t ++ ['"'])) := by
    simp [readUnquoted]
  rw [h1]
  simp [parseRecordF, hu, readQuoted_escape t]

/-- Counterexample for C4 as stated: the uploader value `a,b` contains the
separator but the generated row `Uploader,a,b` is not escaped, and parsing
it back does not recover the field value. -/
theorem csv_escape_claim_false :
    csvRows mComma ("Camp".toList) ("2025".toList) =
      [ "Field,Value".toList,
        "Solidarity Campaign,\"Camp\"".toList,
        "Platform,unknown".toList,
        "Title,\"T\"".toList,
        "Uploader,a,b".toList,
        "URL,u".toList,
        "Views,0".toList,
        "Likes,0".toList,
        "Duration,0".toList,
        "Archived At,2025".toList ]
    ∧ parseRecord ("Uploader,a,b".toList) ≠ ["Uploader".toList, "a,b".toList]
    ∧ parseRecord ("Uploader,a,b".toList) =
      ["Uploader".toList, "a".toList, "b".toList] := by
  decide

/-- C4 amended: only the Title field is CSV-escaped; for any
newline-free title — including titles with embedded quotes and commas —
parsing the exported CSV back recovers every field value, the title
included. -/
theorem csv_title_roundtrip_amended (t : Str) (hnl : '\n' ∉ t) :
    (splitOnChar '\n' (joinNl (csvRows (mTitle t) ("Camp".toList)
        ("2025-01-01T00:00:00.000Z".toList)))).map parseRecord =
      [ ["Field".toList, "Value".toList],
        ["Solidarity Campaign".toList, "Camp".toList],
        ["Platform".toList, "unknown".toList],
        ["Title".toList, t],
        ["Uploader".toList, "Unknown".toList],
        ["URL".toList, "undefined".toList],
        ["Views".toList, "0".toList],
        ["Likes".toList, "0".toList],
        ["Duration".toList, "0".toList],
        ["Archived At".toList, "2025-01-01T00:00:00.000Z".toList] ] := by
  have hjs : jsOrStr (some t) [] = t := by
    by_cases ht : t = [] <;> simp [jsOrStr, ht]
  have hrows : csvRows (mTitle t) ("Camp".toList)
      ("2025-01-01T00:00:00.000Z".toList) =
      [ "Field,Value".toList,
        "Solidarity Campaign,\"Camp\"".toList,
        "Platform,unknown".toList,
        "Title,".toList ++ '"' :: escapeQuotes t ++ ['"'],
        "Uploader,Unknown".toList,
        "URL,undefined".toList,
        "Views,0".toList,
        "Likes,0".toList,
        "Duration,0".toList,
        "Archived At,2025-01-01T00:00:00.000Z".toList ] := by
    simp only [csvRows, mTitle, mNone, hjs, List.cons.injEq]
    exact ⟨trivial, by decide, by decide, trivial, by decide, by decide,
      by decide, by decide, by decide, by decide, trivial⟩
  rw [hrows]
  rw [joinNl_split _ (by simp) ?hnonl]
  case hnonl =>
    intro r hr
    simp only [List.mem_cons, List.not_mem_nil, or_false] at hr
    rcases hr with rfl|rfl|rfl|rfl|rfl|rfl|rfl|rfl|rfl|rfl
    · decide
    · decide
    · decide
    · intro hmem
      rcases List.mem_append.mp hmem with h | h
      · rcases List.mem_append.mp h with h | h
        · exact absurd h (by decide)
        · rcases List.mem_cons.mp h with h | h
          · exact absurd h (by decide)
          · exact escapeQuotes_no_nl t hnl h
      · exact absurd h (by decide)
    · decide
    · decide
    · decide
    · decide
    · decide
    · decide
  simp only [List.map, List.cons.injEq]
  refine ⟨by decide, by decide, by decide, ?_, by decide, by decide,
    by decide, by decide, by decide, by decide, trivial⟩
  have hL : ("Title,".toList ++ '"' :: escapeQuotes t ++ ['"'] : Str).length =
      (escapeQuotes t).length + 8 := by
    have h6 : ("Title,".toList : Str).length = 6 := by decide
    simp only [List.length_append, List.length_cons, h6, List.length_nil]
    omega
  have hF : (escapeQuotes t).length + 8 + 1 = ((escapeQuotes t).length + 7) + 2 := by
    omega
  simp only [parseRecord, hL, hF]
  exact parseRecordF_title _ t

/-- Witness for C4 amended: the spec's example title round-trips through
the export and a CSV parse. -/
theorem csv_title_roundtrip_witness :
    (splitOnChar '\n' (joinNl (csvRows (mTitle ("He said \"hi\", twice".toList))
        ("Camp".toList) ("2025-01-01T00:00:00.000Z".toList)))).map parseRecord =
      [ ["Field".toList, "Value".toList],
        ["Solidarity Campaign".toList, "Camp".toList],
        ["Platform".toList, "unknown".toList],
        ["Title".toList, "He said \"hi\", twice".toList],
        ["Uploader".toList, "Unknown".toList],
        ["URL".toList, "undefined".toList],
        ["Views".toList, "0".toList],
        ["Likes".toList, "0".toList],
        ["Duration".toList, "0".toList],
        ["Archived At".toList, "2025-01-01T00:00:00.000Z".toList] ] :=
  csv_title_roundtrip_amended ("He said \"hi\", twice".toList) (by decide)
